import Mathlib

/-!
Verification development for the license-server repository.

The repository contains two variants of the same HTTP license server:
a file-backed variant (`src/unnamed/part_000`) persisting a JSON object of
license records, and a MongoDB-backed variant (`src/server.js`) with the same
activate/verify logic plus a duplicate-key retry on issuance.

We shallowly embed the license store as an association list from license key
to license record, and each HTTP handler as a pure function on that store.
JavaScript's `undefined`/`null` device binding is an `Option String`;
timestamps (`new Date()` / `Date.now`) are `Nat` parameters supplied to each
operation; the random bytes of `crypto.randomBytes` are a `List Nat`
parameter.  A request field that is missing or the empty string is uniformly
the empty string here, matching the JavaScript truthiness test
`!licenseKey || !deviceId` which rejects both.  File writes
(`saveLicenses` / `.save()`) are modelled as succeeding: the store value in
the embedding is the persisted content.  File reads can fail; `getLicenses`
catches the failure and returns the empty object, which `ReadResult` models.
-/

namespace LicenseServer

/-- A license record, as stored in `licenses.json` (file variant) or as a
`License` document (Mongo variant).  In the file variant a freshly issued
record simply lacks the `deviceId` and `activationDate` properties; in the
Mongo variant they default to `null`/unset.  Both are `none` here. -/
structure License where
  product : String
  activated : Bool
  deviceId : Option String
  activationDate : Option Nat
  createdAt : Nat
deriving Repr, DecidableEq

/-- The persisted mapping from license key to record: the parsed content of
`licenses.json`, or the Mongo collection keyed by the unique `licenseKey`. -/
abbrev Store := List (String × License)

/-- Property lookup `licenses[licenseKey]` on the persisted object. -/
def Store.find : Store → String → Option License
  | [], _ => none
  | (k, v) :: rest, key => if key = k then some v else Store.find rest key

/-- In-place update of an existing property: the effect of
`licenses[licenseKey].activated = true; ...` followed by saving the whole
object.  Entries with other keys are untouched. -/
def Store.set : Store → String → License → Store
  | [], _, _ => []
  | (k, w) :: rest, key, v =>
    if k = key then (key, v) :: Store.set rest key v
    else (k, w) :: Store.set rest key v

/-- Property assignment `licenses[licenseKey] = {...}`: replaces the record
if the key is already present (JavaScript object assignment has no
uniqueness check), otherwise appends a new property. -/
def Store.assign (s : Store) (key : String) (v : License) : Store :=
  if (s.find key).isSome then s.set key v else s ++ [(key, v)]

/-- Result of the `POST /api/activate-license` handler. -/
inductive ActResult
  | invalidInput
  | notFound
  | deviceConflict
  | alreadyActiveSameDevice
  | activated
deriving Repr, DecidableEq

/-- HTTP status code attached to each activation result by the handler. -/
def ActResult.status : ActResult → Nat
  | .invalidInput => 400
  | .notFound => 404
  | .deviceConflict => 403
  | .alreadyActiveSameDevice => 200
  | .activated => 200

/-- Result of the `POST /api/verify-license` handler. -/
inductive VerResult
  | invalidInput
  | notFound
  | notActivated
  | deviceMismatch
  | valid
deriving Repr, DecidableEq

/-- HTTP status code attached to each verification result by the handler. -/
def VerResult.status : VerResult → Nat
  | .invalidInput => 400
  | .notFound => 404
  | .notActivated => 403
  | .deviceMismatch => 403
  | .valid => 200

/-- The `POST /api/activate-license` handler (identical logic in both
variants: `part_000` lines 108-164, `server.js` lines 327-385).  Validates
the inputs, looks the key up, then branches on `activated` and on the strict
string comparison `license.deviceId !== deviceId` (an unset binding compares
unequal to every string, as in JavaScript). `now` is the activation
timestamp `new Date()`. -/
def activate (store : Store) (licenseKey deviceId : String) (now : Nat) :
    ActResult × Store :=
  if licenseKey = "" ∨ deviceId = "" then (.invalidInput, store)
  else
    match store.find licenseKey with
    | none => (.notFound, store)
    | some lic =>
      if lic.activated then
        if lic.deviceId ≠ some deviceId then (.deviceConflict, store)
        else (.alreadyActiveSameDevice, store)
      else
        (.activated,
          store.set licenseKey
            { lic with
              activated := true
              deviceId := some deviceId
              activationDate := some now })

/-- The `POST /api/verify-license` handler (`part_000` lines 167-211,
`server.js` lines 388-433).  It never calls `saveLicenses`/`save`: it is a
function of the store only. -/
def verify (store : Store) (licenseKey deviceId : String) : VerResult :=
  if licenseKey = "" ∨ deviceId = "" then .invalidInput
  else
    match store.find licenseKey with
    | none => .notFound
    | some lic =>
      if !lic.activated then .notActivated
      else if lic.deviceId ≠ some deviceId then .deviceMismatch
      else .valid

/-- The record created by `GET /api/generate-test-license`:
`{ product: 'test_product', activated: false, createdAt: ... }`. -/
def newTestLicense (now : Nat) : License :=
  { product := "test_product"
    activated := false
    deviceId := none
    activationDate := none
    createdAt := now }

/-- The file-variant `GET /api/generate-test-license` handler body
(`part_000` lines 76-105): stores the freshly generated key via plain
object assignment, with no uniqueness check.  The generated key is a
parameter, modelling the randomness of `generateLicenseKey`. -/
def issue (store : Store) (key : String) (now : Nat) : String × Store :=
  (key, store.assign key (newTestLicense now))

/-- One uppercase hex digit, `n < 16`: digit `n` of the uppercased hex
encoding `randomBytes.toString('hex').toUpperCase()`. -/
def hexDigit (n : Nat) : Char :=
  if n < 10 then Char.ofNat (48 + n) else Char.ofNat (55 + n)

/-- Uppercased hex encoding of a byte: two hex digits, high nibble first. -/
def byteToHex (b : Nat) : List Char :=
  [hexDigit (b / 16), hexDigit (b % 16)]

/-- `randomBytes.toString('hex').toUpperCase()` over the byte list. -/
def hexUpper (bytes : List Nat) : List Char :=
  bytes.flatMap byteToHex

/-- `generateLicenseKey` (`part_000` lines 47-62, `server.js` lines 222-238),
success path: hex-encode and uppercase the 12 random bytes, split into three
8-character sections with `substr`, join with the prefix by hyphens.  The
random bytes are a parameter. -/
def generateLicenseKey (pfx : String) (bytes : List Nat) : String :=
  let randomHex := hexUpper bytes
  let section1 := randomHex.take 8
  let section2 := (randomHex.drop 8).take 8
  let section3 := (randomHex.drop 16).take 8
  pfx ++ "-" ++ ⟨section1⟩ ++ "-" ++ ⟨section2⟩ ++ "-" ++ ⟨section3⟩

/-- `generateLicenseKey` fallback path on entropy failure:
`prefix + '-' + Math.random().toString(36).substring(2, 10).toUpperCase()`.
`s` stands for `Math.random().toString(36).substring(2, 10)`: the first at
most eight base-36 fraction digits (characters 0-9, a-z) of the random
number; `.toUpperCase()` is the character-wise ASCII uppercasing. -/
def fallbackKey (pfx : String) (s : String) : String :=
  pfx ++ "-" ++ ⟨s.data.map Char.toUpper⟩

/-- The character class `[0-9A-F]` of the specified key format. -/
def isHexUpper (c : Char) : Bool :=
  ('0' ≤ c ∧ c ≤ '9') ∨ ('A' ≤ c ∧ c ≤ 'F')

/-- Consume exactly `n` characters of the class `[0-9A-F]`, returning the
rest of the input, or `none` if the input is shorter or mismatches. -/
def hexRun : Nat → List Char → Option (List Char)
  | 0, l => some l
  | _ + 1, [] => none
  | n + 1, c :: l => if isHexUpper c then hexRun n l else none

/-- Consume the literal character list `p`, returning the rest. -/
def dropLit : List Char → List Char → Option (List Char)
  | [], l => some l
  | _ :: _, [] => none
  | p :: ps, c :: l => if c = p then dropLit ps l else none

/-- Checker for `[0-9A-F]{8}-[0-9A-F]{8}-[0-9A-F]{8}`: three hyphen-separated
runs of exactly eight uppercase hex characters, and nothing after. -/
def tailOk (l : List Char) : Bool :=
  match hexRun 8 l with
  | some ('-' :: rest2) =>
    match hexRun 8 rest2 with
    | some ('-' :: rest3) =>
      match hexRun 8 rest3 with
      | some [] => true
      | _ => false
    | _ => false
  | _ => false

/-- Decidable checker for the specified key format
`PREFIX-[0-9A-F]{8}-[0-9A-F]{8}-[0-9A-F]{8}`: the literal prefix, a hyphen,
then three hyphen-separated runs of exactly eight uppercase hex characters. -/
def keyFormatOk (pfx key : String) : Bool :=
  match dropLit (pfx.data ++ ['-']) key.data with
  | some rest => tailOk rest
  | none => false

/-- One client request against the server.  Random generator output and
clock readings appear as data of the request. -/
inductive Request
  | issue (key : String) (now : Nat)
  | activate (licenseKey deviceId : String) (now : Nat)
  | verify (licenseKey deviceId : String)
deriving Repr, DecidableEq

/-- Response body of a request, reduced to the fields the claims mention. -/
inductive Response
  | issued (key : String)
  | act (r : ActResult)
  | ver (r : VerResult)
deriving Repr, DecidableEq

/-- One request processed by the file-variant server: the response and the
persisted store afterwards. -/
def step (store : Store) : Request → Response × Store
  | .issue key now => (.issued (issue store key now).1, (issue store key now).2)
  | .activate licenseKey deviceId now =>
    (.act (activate store licenseKey deviceId now).1,
     (activate store licenseKey deviceId now).2)
  | .verify licenseKey deviceId => (.ver (verify store licenseKey deviceId), store)

/-- The store after serving a sequence of requests. -/
def runReqs (store : Store) (reqs : List Request) : Store :=
  reqs.foldl (fun s r => (step s r).2) store

/-- The Mongo-variant `GET /api/generate-test-license` handler
(`server.js` lines 260-324).  `license.save()` on a collection with a
unique index on `licenseKey` inserts only if the key is absent; on a
duplicate-key error (code 11000) the handler generates one new key under the
suffixed prefix `'TEST-' + Date.now().toString(36).substring(-4)` and saves
it; a duplicate on that second save escapes to the outer catch (HTTP 500),
modelled as `none`.  `bytes1`/`bytes2` are the two draws of random bytes and
`suffix` the base-36 clock suffix. -/
def issueRetry (store : Store) (bytes1 : List Nat) (suffix : String)
    (bytes2 : List Nat) (now : Nat) : Option String × Store :=
  let key1 := generateLicenseKey "TEST" bytes1
  if (store.find key1).isSome then
    let key2 := generateLicenseKey ("TEST-" ++ suffix) bytes2
    if (store.find key2).isSome then (none, store)
    else (some key2, store ++ [(key2, newTestLicense now)])
  else (some key1, store ++ [(key1, newTestLicense now)])

/-- Outcome of reading `licenses.json` from disk: either the parsed object,
or a read/parse failure (missing file, invalid JSON, I/O error). -/
inductive ReadResult
  | ok (s : Store)
  | failure
deriving Repr, DecidableEq

/-- `getLicenses` (`part_000` lines 28-35): parse the license file, and on
any error catch it, log, and return the empty object `{}`. -/
def getLicenses : ReadResult → Store
  | .ok s => s
  | .failure => []

/-- The `GET /api/admin/licenses` handler (`part_000` lines 213-221):
status 200 with the full mapping returned by `getLicenses`.  Its catch
branch (status 500) is unreachable because `getLicenses` handles every read
error internally, so the handler is total with status 200. -/
def adminLicenses (r : ReadResult) : Nat × Store :=
  (200, getLicenses r)

/-- The activate handler as run against the file on disk: it obtains the
store via `getLicenses` before branching. -/
def activateHandler (r : ReadResult) (licenseKey deviceId : String)
    (now : Nat) : ActResult × Store :=
  activate (getLicenses r) licenseKey deviceId now

/-- The verify handler as run against the file on disk. -/
def verifyHandler (r : ReadResult) (licenseKey deviceId : String) : VerResult :=
  verify (getLicenses r) licenseKey deviceId

/-- Store-wide record invariant: a record's device binding is unset exactly
when the record is not activated. -/
def StoreInv (s : Store) : Prop :=
  ∀ k lic, s.find k = some lic → (lic.deviceId = none ↔ lic.activated = false)

/-- Formalisation of the permanence claim as stated: in any state reachable
from the empty store, once a record is activated with a bound device, the
binding survives any further sequence of requests. -/
def DeviceBindingPermanent : Prop :=
  ∀ (reqs more : List Request) (k d : String) (lic lic' : License),
    (runReqs [] reqs).find k = some lic →
    lic.activated = true →
    lic.deviceId = some d →
    (runReqs (runReqs [] reqs) more).find k = some lic' →
    lic'.deviceId = some d

/-- Formalisation of the no-overwrite claim as stated for the file-variant
issuance: an existing record survives any issuance unchanged. -/
def IssueNeverOverwrites : Prop :=
  ∀ (store : Store) (key : String) (now : Nat) (k : String) (lic : License),
    store.find k = some lic → ((issue store key now).2.find k = some lic)

/- ## Store lemmas -/

theorem find_set_self (s : Store) (k : String) (v v' : License)
    (h : s.find k = some v') : (s.set k v).find k = some v := by
  induction s with
  | nil => simp [Store.find] at h
  | cons p rest ih =>
    obtain ⟨a, b⟩ := p
    by_cases hk : k = a
    · subst hk
      simp [Store.find, Store.set]
    · simp [Store.find, hk] at h
      simp [Store.find, Store.set, hk, Ne.symm hk, ih h]

theorem find_set_ne (s : Store) (k k' : String) (v : License) (h : k' ≠ k) :
    (s.set k v).find k' = s.find k' := by
  induction s with
  | nil => rfl
  | cons p rest ih =>
    obtain ⟨a, b⟩ := p
    by_cases ha : a = k
    · subst ha
      simp [Store.find, Store.set, h, ih]
    · simp [Store.find, Store.set, ha, ih]

theorem find_append_left (s t : Store) (k : String) (v : License)
    (h : s.find k = some v) : (s ++ t).find k = some v := by
  induction s with
  | nil => simp [Store.find] at h
  | cons p rest ih =>
    by_cases hk : k = p.1
    · simp [Store.find, hk] at h ⊢
      exact h
    · simp [Store.find, hk] at h ⊢
      exact ih h

theorem find_append_right (s t : Store) (k : String)
    (h : s.find k = none) : (s ++ t).find k = t.find k := by
  induction s with
  | nil => rfl
  | cons p rest ih =>
    by_cases hk : k = p.1
    · simp [Store.find, hk] at h
    · simp [Store.find, hk] at h ⊢
      exact ih h

theorem find_assign_self (s : Store) (k : String) (v : License) :
    (s.assign k v).find k = some v := by
  unfold Store.assign
  rcases h : s.find k with _ | v'
  · simp [h]
    rw [find_append_right s _ k h]
    simp [Store.find]
  · simp [h]
    exact find_set_self s k v v' h

theorem find_assign_ne (s : Store) (k k' : String) (v : License) (h : k' ≠ k) :
    (s.assign k v).find k' = s.find k' := by
  unfold Store.assign
  rcases hf : s.find k with _ | v'
  · simp [hf]
    rcases h2 : s.find k' with _ | w
    · rw [find_append_right s _ k' h2]
      simp [Store.find, h]
    · exact find_append_left s _ k' w h2
  · simp [hf]
    exact find_set_ne s k k' v h

/- ## Shape of the store after one request -/

theorem activate_store_cases (store : Store) (k' d : String) (now : Nat) :
    (activate store k' d now).2 = store ∨
    ∃ lic, store.find k' = some lic ∧ lic.activated = false ∧
      (activate store k' d now).2 =
        store.set k'
          { lic with
            activated := true
            deviceId := some d
            activationDate := some now } := by
  unfold activate
  by_cases hv : k' = "" ∨ d = ""
  · simp [hv]
  · rcases hf : store.find k' with _ | lic
    · simp [hv, hf]
    · by_cases ha : lic.activated
      · by_cases hd : lic.deviceId ≠ some d <;> simp [hv, hf, ha, hd]
      · simp only [Bool.not_eq_true] at ha
        simp [hv, hf, ha]

theorem step_keeps_activated_record (store : Store) (k : String) (lic : License)
    (hfind : store.find k = some lic) (hact : lic.activated = true) :
    ∀ req : Request, (∀ key now, req = .issue key now → key ≠ k) →
      (step store req).2.find k = some lic := by
  intro req hkey
  cases req with
  | issue key now =>
    have hne : key ≠ k := hkey key now rfl
    simp only [step, issue]
    rw [find_assign_ne store key k _ (Ne.symm hne)]
    exact hfind
  | activate k2 d now =>
    simp only [step]
    rcases activate_store_cases store k2 d now with h | ⟨lic2, hf2, hp2, h⟩
    · rw [h]; exact hfind
    · rw [h]
      have hne : k ≠ k2 := by
        intro hkk
        rw [hkk, hf2] at hfind
        have : lic2.activated = true := by
          rw [← Option.some.injEq] at hfind
          cases hfind
          exact hact
        rw [hp2] at this
        exact Bool.false_ne_true this
      rw [find_set_ne store k2 k _ hne]
      exact hfind
  | verify k2 d =>
    simp only [step]
    exact hfind

theorem runReqs_keeps_activated_record (reqs : List Request) :
    ∀ (store : Store) (k : String) (lic : License),
      store.find k = some lic → lic.activated = true →
      (∀ key now, Request.issue key now ∈ reqs → key ≠ k) →
      (runReqs store reqs).find k = some lic := by
  induction reqs with
  | nil => intro store k lic hfind _ _; exact hfind
  | cons r rest ih =>
    intro store k lic hfind hact hfresh
    have hstep : (step store r).2.find k = some lic :=
      step_keeps_activated_record store k lic hfind hact r
        (fun key now hr => hfresh key now (by rw [← hr]; exact List.mem_cons_self r rest))
    have : runReqs store (r :: rest) = runReqs (step store r).2 rest := rfl
    rw [this]
    exact ih (step store r).2 k lic hstep hact
      (fun key now hmem => hfresh key now (List.mem_cons_of_mem r hmem))

/- ## Preservation of the deviceId-activated invariant -/

theorem storeInv_step (store : Store) (req : Request) (h : StoreInv store) :
    StoreInv (step store req).2 := by
  cases req with
  | issue key now =>
    intro k lic hfind
    simp only [step, issue] at hfind
    by_cases hk : k = key
    · rw [hk, find_assign_self] at hfind
      cases hfind
      simp [newTestLicense]
    · rw [find_assign_ne store key k _ hk] at hfind
      exact h k lic hfind
  | activate k2 d now =>
    intro k lic hfind
    simp only [step] at hfind
    rcases activate_store_cases store k2 d now with heq | ⟨lic2, hf2, hp2, heq⟩
    · rw [heq] at hfind
      exact h k lic hfind
    · rw [heq] at hfind
      by_cases hk : k = k2
      · rw [hk, find_set_self store k2 _ lic2 hf2] at hfind
        cases hfind
        simp
      · rw [find_set_ne store k2 k _ hk] at hfind
        exact h k lic hfind
  | verify k2 d =>
    intro k lic hfind
    simp only [step] at hfind
    exact h k lic hfind

theorem storeInv_runReqs (reqs : List Request) :
    ∀ store : Store, StoreInv store → StoreInv (runReqs store reqs) := by
  induction reqs with
  | nil => intro store h; exact h
  | cons r rest ih =>
    intro store h
    exact ih (step store r).2 (storeInv_step store r h)

theorem storeInv_empty : StoreInv ([] : Store) := by
  intro k lic hfind
  simp [Store.find] at hfind

/- ## Key generator lemmas -/

theorem isHexUpper_hexDigit : ∀ n, n < 16 → isHexUpper (hexDigit n) = true := by
  decide

theorem hexUpper_all_hex (bytes : List Nat) (h : ∀ b ∈ bytes, b < 256) :
    ∀ c ∈ hexUpper bytes, isHexUpper c = true := by
  induction bytes with
  | nil => simp [hexUpper]
  | cons b bs ih =>
    intro c hc
    have hb : b < 256 := h b (List.mem_cons_self b bs)
    have hsplit : c ∈ byteToHex b ∨ c ∈ hexUpper bs := by
      simpa [hexUpper] using hc
    rcases hsplit with h1 | h1
    · simp only [byteToHex, List.mem_cons, List.not_mem_nil, or_false] at h1
      rcases h1 with h1 | h1 <;> subst h1
      · exact isHexUpper_hexDigit (b / 16) (Nat.div_lt_of_lt_mul hb)
      · exact isHexUpper_hexDigit (b % 16) (Nat.mod_lt b (by norm_num))
    · exact ih (fun x hx => h x (List.mem_cons_of_mem b hx)) c h1

theorem hexUpper_length (bytes : List Nat) :
    (hexUpper bytes).length = 2 * bytes.length := by
  induction bytes with
  | nil => rfl
  | cons b bs ih =>
    simp only [hexUpper, List.flatMap_cons, byteToHex, List.length_append,
      List.length_cons, List.length_nil, List.length_cons] at *
    omega

theorem hexRun_append_all (l t : List Char) (h : ∀ c ∈ l, isHexUpper c = true) :
    hexRun l.length (l ++ t) = some t := by
  induction l with
  | nil => rfl
  | cons c cs ih =>
    simp only [List.length_cons, List.cons_append, hexRun,
      h c (List.mem_cons_self c cs), if_true]
    exact ih (fun x hx => h x (List.mem_cons_of_mem c hx))

theorem hexRun_length :
    ∀ (n : Nat) (l t : List Char), hexRun n l = some t → l.length = n + t.length := by
  intro n
  induction n with
  | zero =>
    intro l t h
    simp [hexRun] at h
    rw [h]
    omega
  | succ m ih =>
    intro l t h
    cases l with
    | nil => simp [hexRun] at h
    | cons c cs =>
      simp only [hexRun] at h
      by_cases hc : isHexUpper c
      · rw [if_pos hc] at h
        have := ih cs t h
        simp [List.length_cons, this]
        omega
      · rw [if_neg hc] at h
        exact absurd h (by simp)

theorem dropLit_append (p l : List Char) : dropLit p (p ++ l) = some l := by
  induction p with
  | nil => rfl
  | cons c cs ih => simp [dropLit, ih]

theorem dropLit_hyphen (p rest : List Char) :
    dropLit (p ++ ['-']) (p ++ '-' :: rest) = some rest := by
  have h := dropLit_append (p ++ ['-']) rest
  simpa using h

theorem tailOk_of_segments (s1 s2 s3 : List Char)
    (h1 : s1.length = 8) (h2 : s2.length = 8) (h3 : s3.length = 8)
    (a1 : ∀ c ∈ s1, isHexUpper c = true) (a2 : ∀ c ∈ s2, isHexUpper c = true)
    (a3 : ∀ c ∈ s3, isHexUpper c = true) :
    tailOk (s1 ++ '-' :: (s2 ++ '-' :: s3)) = true := by
  have e1 : hexRun 8 (s1 ++ '-' :: (s2 ++ '-' :: s3)) = some ('-' :: (s2 ++ '-' :: s3)) := by
    rw [← h1]
    exact hexRun_append_all s1 _ a1
  have e2 : hexRun 8 (s2 ++ '-' :: s3) = some ('-' :: s3) := by
    rw [← h2]
    exact hexRun_append_all s2 _ a2
  have e3 : hexRun 8 s3 = some [] := by
    rw [← h3]
    have h := hexRun_append_all s3 [] a3
    simpa using h
  simp [tailOk, e1, e2, e3]

theorem tailOk_short (l : List Char) (h : l.length ≤ 8) : tailOk l = false := by
  unfold tailOk
  rcases h8 : hexRun 8 l with _ | t
  · rfl
  · have hl := hexRun_length 8 l t h8
    have ht : t = [] := List.eq_nil_of_length_eq_zero (by omega)
    subst ht
    rfl

theorem hyphen_data : ("-" : String).data = ['-'] := rfl

theorem generate_matches_format (pfx : String) (bytes : List Nat)
    (hlen : bytes.length = 12) (hb : ∀ b ∈ bytes, b < 256) :
    keyFormatOk pfx (generateLicenseKey pfx bytes) = true := by
  have hxlen : (hexUpper bytes).length = 24 := by
    rw [hexUpper_length, hlen]
  have hall : ∀ c ∈ hexUpper bytes, isHexUpper c = true := hexUpper_all_hex bytes hb
  have h1len : ((hexUpper bytes).take 8).length = 8 := by
    rw [List.length_take]
    omega
  have h2len : (((hexUpper bytes).drop 8).take 8).length = 8 := by
    rw [List.length_take, List.length_drop]
    omega
  have h3len : (((hexUpper bytes).drop 16).take 8).length = 8 := by
    rw [List.length_take, List.length_drop]
    omega
  have h1all : ∀ c ∈ (hexUpper bytes).take 8, isHexUpper c = true :=
    fun c hc => hall c (List.take_subset _ _ hc)
  have h2all : ∀ c ∈ ((hexUpper bytes).drop 8).take 8, isHexUpper c = true :=
    fun c hc => hall c (List.drop_subset _ _ (List.take_subset _ _ hc))
  have h3all : ∀ c ∈ ((hexUpper bytes).drop 16).take 8, isHexUpper c = true :=
    fun c hc => hall c (List.drop_subset _ _ (List.take_subset _ _ hc))
  have hdata : (generateLicenseKey pfx bytes).data
      = pfx.data ++ '-' :: ((hexUpper bytes).take 8 ++ '-' ::
          (((hexUpper bytes).drop 8).take 8 ++ '-' :: ((hexUpper bytes).drop 16).take 8)) := by
    simp [generateLicenseKey, String.data_append, hyphen_data]
  unfold keyFormatOk
  rw [hdata, dropLit_hyphen]
  exact tailOk_of_segments _ _ _ h1len h2len h3len h1all h2all h3all

theorem fallback_not_format (pfx s : String) (hlen : s.length ≤ 8) :
    keyFormatOk pfx (fallbackKey pfx s) = false := by
  have hdata : (fallbackKey pfx s).data = pfx.data ++ '-' :: (s.data.map Char.toUpper) := by
    simp [fallbackKey, String.data_append, hyphen_data]
  unfold keyFormatOk
  rw [hdata, dropLit_hyphen]
  refine tailOk_short _ ?_
  rw [List.length_map]
  exact hlen

/- ## Claim theorems -/

/-- C1: with non-empty `licenseKey` and `deviceId`, `Activate` returns
`NotFound` (404) and leaves the store unchanged when the key is absent;
returns the idempotent `AlreadyActiveSameDevice` (200) without mutation when
the record is activated on the same device; fails with `DeviceConflict`
(403) without mutation when it is activated on another device; and when the
record is pending it binds the device, stamps the activation date, persists
the updated record and returns `Activated` (200). -/
theorem claim_activate_case_analysis (store : Store) (k d : String) (now : Nat)
    (hk : k ≠ "") (hd : d ≠ "") :
    (store.find k = none →
      activate store k d now = (.notFound, store) ∧ ActResult.notFound.status = 404) ∧
    (∀ lic, store.find k = some lic → lic.activated = true → lic.deviceId = some d →
      activate store k d now = (.alreadyActiveSameDevice, store) ∧
        ActResult.alreadyActiveSameDevice.status = 200) ∧
    (∀ lic, store.find k = some lic → lic.activated = true → lic.deviceId ≠ some d →
      activate store k d now = (.deviceConflict, store) ∧
        ActResult.deviceConflict.status = 403) ∧
    (∀ lic, store.find k = some lic → lic.activated = false →
      activate store k d now =
        (.activated, store.set k
          { lic with
            activated := true
            deviceId := some d
            activationDate := some now }) ∧
      (activate store k d now).2.find k =
        some { lic with
               activated := true
               deviceId := some d
               activationDate := some now } ∧
      ActResult.activated.status = 200) := by
  have hv : ¬(k = "" ∨ d = "") := by tauto
  refine ⟨?_, ?_, ?_, ?_⟩
  · intro hf
    exact ⟨by simp [activate, hv, hf], rfl⟩
  · intro lic hf ha hdev
    exact ⟨by simp [activate, hv, hf, ha, hdev], rfl⟩
  · intro lic hf ha hdev
    exact ⟨by simp [activate, hv, hf, ha, hdev], rfl⟩
  · intro lic hf ha
    have heq : activate store k d now =
        (.activated, store.set k
          { lic with
            activated := true
            deviceId := some d
            activationDate := some now }) := by
      simp [activate, hv, hf, ha]
    refine ⟨heq, ?_, rfl⟩
    rw [heq]
    exact find_set_self store k _ lic hf

/-- C1 witness: a pending license activates at a concrete input. -/
theorem claim_activate_case_analysis_witness :
    activate [("K", newTestLicense 0)] "K" "D" 5 =
      (.activated, Store.set [("K", newTestLicense 0)] "K"
        { newTestLicense 0 with
          activated := true
          deviceId := some "D"
          activationDate := some 5 }) ∧
    (activate [("K", newTestLicense 0)] "K" "D" 5).2.find "K" =
      some { newTestLicense 0 with
             activated := true
             deviceId := some "D"
             activationDate := some 5 } ∧
    ActResult.activated.status = 200 :=
  (claim_activate_case_analysis [("K", newTestLicense 0)] "K" "D" 5
    (by decide) (by decide)).2.2.2 (newTestLicense 0) (by decide) (by decide)

/-- C2: with non-empty `licenseKey` and `deviceId`, `Verify` never mutates
the store, and returns `NotFound` (404) when the key is absent,
`NotActivated` (403) when the record is not activated, `DeviceMismatch`
(403) when the bound device differs, and `Valid` (200) otherwise. -/
theorem claim_verify_pure_read (store : Store) (k d : String)
    (hk : k ≠ "") (hd : d ≠ "") :
    (step store (.verify k d)).2 = store ∧
    (store.find k = none →
      verify store k d = .notFound ∧ VerResult.notFound.status = 404) ∧
    (∀ lic, store.find k = some lic → lic.activated = false →
      verify store k d = .notActivated ∧ VerResult.notActivated.status = 403) ∧
    (∀ lic, store.find k = some lic → lic.activated = true → lic.deviceId ≠ some d →
      verify store k d = .deviceMismatch ∧ VerResult.deviceMismatch.status = 403) ∧
    (∀ lic, store.find k = some lic → lic.activated = true → lic.deviceId = some d →
      verify store k d = .valid ∧ VerResult.valid.status = 200) := by
  have hv : ¬(k = "" ∨ d = "") := by tauto
  refine ⟨rfl, ?_, ?_, ?_, ?_⟩
  · intro hf
    exact ⟨by simp [verify, hv, hf], rfl⟩
  · intro lic hf ha
    exact ⟨by simp [verify, hv, hf, ha], rfl⟩
  · intro lic hf ha hdev
    exact ⟨by simp [verify, hv, hf, ha, hdev], rfl⟩
  · intro lic hf ha hdev
    exact ⟨by simp [verify, hv, hf, ha, hdev], rfl⟩

/-- C2 witness: verifying an activated license with its bound device at a
concrete input. -/
theorem claim_verify_pure_read_witness :
    verify [("K", { newTestLicense 0 with activated := true, deviceId := some "D" })]
        "K" "D" = .valid ∧
    VerResult.valid.status = 200 :=
  (claim_verify_pure_read
      [("K", { newTestLicense 0 with activated := true, deviceId := some "D" })]
      "K" "D" (by decide) (by decide)).2.2.2.2
    { newTestLicense 0 with activated := true, deviceId := some "D" }
    (by decide) rfl rfl

/-- C3 counterexample: device binding is not permanent under arbitrary
request sequences.  The file-variant issuance stores its freshly generated
key by plain object assignment, so when the generator happens to reproduce
an existing key (here: twelve zero bytes twice), the activated record is
replaced by a fresh pending one and the binding to `device-1` is lost. -/
theorem claim_device_binding_cex : ¬ DeviceBindingPermanent := by
  intro h
  have hdev :=
    h [.issue (generateLicenseKey "TEST" (List.replicate 12 0)) 0,
       .activate (generateLicenseKey "TEST" (List.replicate 12 0)) "device-1" 1]
      [.issue (generateLicenseKey "TEST" (List.replicate 12 0)) 2]
      (generateLicenseKey "TEST" (List.replicate 12 0)) "device-1"
      { product := "test_product"
        activated := true
        deviceId := some "device-1"
        activationDate := some 1
        createdAt := 0 }
      (newTestLicense 2)
      (by decide) rfl rfl (by decide)
  exact absurd hdev (by decide)

/-- C3 (amended): in any state, once a record is activated with a bound
device, its `deviceId` survives every further sequence of Activate and
Verify requests, and every Issue whose generated key differs from the
record's key; only an Issue colliding with the record's own key can reset
the binding. -/
theorem claim_device_binding_amended (store : Store) (reqs : List Request)
    (k d : String) (lic : License)
    (hfind : store.find k = some lic) (hact : lic.activated = true)
    (hdev : lic.deviceId = some d)
    (hfresh : ∀ key now, Request.issue key now ∈ reqs → key ≠ k) :
    ∀ lic', (runReqs store reqs).find k = some lic' → lic'.deviceId = some d := by
  intro lic' hfind'
  have h := runReqs_keeps_activated_record reqs store k lic hfind hact hfresh
  rw [h] at hfind'
  cases hfind'
  exact hdev

/-- C3 (amended) witness: the binding survives a verify and a non-colliding
issue at a concrete input. -/
theorem claim_device_binding_amended_witness :
    ({ newTestLicense 0 with
       activated := true
       deviceId := some "D" } : License).deviceId = some "D" :=
  claim_device_binding_amended
    [("K", { newTestLicense 0 with activated := true, deviceId := some "D" })]
    [.verify "K" "D", .issue "K2" 3] "K" "D"
    { newTestLicense 0 with activated := true, deviceId := some "D" }
    (by decide) rfl rfl
    (by
      intro key now hmem
      simp only [List.mem_cons, List.not_mem_nil, or_false] at hmem
      rcases hmem with hmem | hmem
      · exact absurd hmem (by simp)
      · rw [(Request.issue.injEq _ _ _ _).mp hmem |>.1]
        decide)
    { newTestLicense 0 with activated := true, deviceId := some "D" }
    (by decide)

/-- C4: in every state reachable from the empty store by Issue, Activate
and Verify requests, a record's `deviceId` is unset exactly when its
`activated` flag is false. -/
theorem claim_deviceId_null_iff_not_activated (reqs : List Request) :
    StoreInv (runReqs [] reqs) :=
  storeInv_runReqs reqs [] storeInv_empty

/-- C4 witness: the invariant holds after a concrete issue-activate-verify
sequence. -/
theorem claim_deviceId_null_iff_not_activated_witness :
    StoreInv (runReqs [] [.issue "K" 0, .activate "K" "D" 1, .verify "K" "D", .issue "K2" 2]) :=
  claim_deviceId_null_iff_not_activated
    [.issue "K" 0, .activate "K" "D" 1, .verify "K" "D", .issue "K2" 2]

/-- C5: re-activating an already-activated license with the bound device
returns the idempotent success and the store — in particular the record and
its `activationDate` — is exactly the store before the call; with a
different device it fails with the conflict result and the store is again
unchanged. -/
theorem claim_repeat_activation (store : Store) (k d : String) (now : Nat)
    (lic : License) (hk : k ≠ "") (hd : d ≠ "")
    (hfind : store.find k = some lic) (hact : lic.activated = true) :
    (lic.deviceId = some d →
      activate store k d now = (.alreadyActiveSameDevice, store)) ∧
    (lic.deviceId ≠ some d →
      activate store k d now = (.deviceConflict, store)) := by
  have hv : ¬(k = "" ∨ d = "") := by tauto
  constructor <;> intro hdev <;> simp [activate, hv, hfind, hact, hdev]

/-- C5 witness: both repeat-activation cases at a concrete activated
record. -/
theorem claim_repeat_activation_witness :
    activate [("K", { newTestLicense 0 with
                      activated := true
                      deviceId := some "D"
                      activationDate := some 1 })] "K" "D" 9 =
      (.alreadyActiveSameDevice,
        [("K", { newTestLicense 0 with
                 activated := true
                 deviceId := some "D"
                 activationDate := some 1 })]) ∧
    activate [("K", { newTestLicense 0 with
                      activated := true
                      deviceId := some "D"
                      activationDate := some 1 })] "K" "E" 9 =
      (.deviceConflict,
        [("K", { newTestLicense 0 with
                 activated := true
                 deviceId := some "D"
                 activationDate := some 1 })]) :=
  ⟨(claim_repeat_activation _ "K" "D" 9
      { newTestLicense 0 with
        activated := true
        deviceId := some "D"
        activationDate := some 1 }
      (by decide) (by decide) (by decide) rfl).1 rfl,
   (claim_repeat_activation _ "K" "E" 9
      { newTestLicense 0 with
        activated := true
        deviceId := some "D"
        activationDate := some 1 }
      (by decide) (by decide) (by decide) rfl).2 (by decide)⟩

/-- C6 counterexample: the pseudo-random fallback does not have the shape
`PREFIX-[0-9A-F]{8}-[0-9A-F]{8}-[0-9A-F]{8}`.  For the achievable draw
`Math.random().toString(36).substring(2, 10) = "za0kq3mv"` the fallback key
is `LIC-ZA0KQ3MV`: a single base-36 segment, failing the format check. -/
theorem claim_fallback_format_cex :
    keyFormatOk "LIC" (fallbackKey "LIC" "za0kq3mv") = false := by decide

/-- C6 (amended): every key produced by the normal path of the generator —
twelve random bytes, hex-encoded and uppercased — matches
`PREFIX-[0-9A-F]{8}-[0-9A-F]{8}-[0-9A-F]{8}`; the pseudo-random fallback on
entropy failure instead yields the prefix followed by one segment of at
most eight characters and never matches that format. -/
theorem claim_key_format_amended :
    (∀ (pfx : String) (bytes : List Nat), bytes.length = 12 →
      (∀ b ∈ bytes, b < 256) →
      keyFormatOk pfx (generateLicenseKey pfx bytes) = true) ∧
    (∀ pfx s : String, s.length ≤ 8 →
      keyFormatOk pfx (fallbackKey pfx s) = false) :=
  ⟨generate_matches_format, fallback_not_format⟩

/-- C6 (amended) witness: both generator paths at concrete byte draws. -/
theorem claim_key_format_amended_witness :
    keyFormatOk "TEST" (generateLicenseKey "TEST"
      [255, 1, 2, 3, 4, 5, 6, 7, 8, 9, 10, 171]) = true ∧
    keyFormatOk "LIC" (fallbackKey "LIC" "k7p2q9mz") = false :=
  ⟨claim_key_format_amended.1 "TEST" [255, 1, 2, 3, 4, 5, 6, 7, 8, 9, 10, 171]
      (by decide) (by decide),
   claim_key_format_amended.2 "LIC" "k7p2q9mz" (by decide)⟩

/-- C7 counterexample: file-variant issuance does overwrite.  With an
activated record stored under `TEST-00000000-00000000-00000000` and the
generator reproducing that very key (twelve zero bytes), issuing replaces
the record by a fresh pending one instead of retrying. -/
theorem claim_issue_overwrite_cex : ¬ IssueNeverOverwrites := by
  intro h
  have hkeep :=
    h [(generateLicenseKey "TEST" (List.replicate 12 0),
        { product := "test_product"
          activated := true
          deviceId := some "device-1"
          activationDate := some 1
          createdAt := 0 })]
      (generateLicenseKey "TEST" (List.replicate 12 0)) 2
      (generateLicenseKey "TEST" (List.replicate 12 0))
      { product := "test_product"
        activated := true
        deviceId := some "device-1"
        activationDate := some 1
        createdAt := 0 }
      (by decide)
  exact absurd hkeep (by decide)

/-- C7 (amended): in the Mongo variant, when the first generated key
collides with an existing record and the retried key — generated under the
suffixed prefix `TEST-<suffix>` — is fresh, issuance persists a new pending
record under the retried key and every pre-existing record survives
unchanged; Mongo-variant issuance never overwrites.  (The file variant has
no such retry and overwrites on collision, per the counterexample.) -/
theorem claim_issue_retry_amended (store : Store) (bytes1 : List Nat)
    (sfx : String) (bytes2 : List Nat) (now : Nat)
    (hc : (store.find (generateLicenseKey "TEST" bytes1)).isSome = true)
    (hf : store.find (generateLicenseKey ("TEST-" ++ sfx) bytes2) = none) :
    issueRetry store bytes1 sfx bytes2 now =
      (some (generateLicenseKey ("TEST-" ++ sfx) bytes2),
        store ++ [(generateLicenseKey ("TEST-" ++ sfx) bytes2, newTestLicense now)]) ∧
    (newTestLicense now).activated = false ∧
    (newTestLicense now).deviceId = none ∧
    (∀ k lic, store.find k = some lic →
      (issueRetry store bytes1 sfx bytes2 now).2.find k = some lic) := by
  have h1 : issueRetry store bytes1 sfx bytes2 now =
      (some (generateLicenseKey ("TEST-" ++ sfx) bytes2),
        store ++ [(generateLicenseKey ("TEST-" ++ sfx) bytes2, newTestLicense now)]) := by
    simp [issueRetry, hc, hf]
  refine ⟨h1, rfl, rfl, ?_⟩
  intro k lic hk
  rw [h1]
  exact find_append_left store _ k lic hk

/-- C7 (amended) witness: a forced collision on twelve zero bytes retried
under a fresh suffixed key at a concrete store. -/
theorem claim_issue_retry_amended_witness :
    issueRetry [(generateLicenseKey "TEST" (List.replicate 12 0), newTestLicense 0)]
      (List.replicate 12 0) "z1" (List.replicate 12 255) 7 =
      (some (generateLicenseKey "TEST-z1" (List.replicate 12 255)),
        [(generateLicenseKey "TEST" (List.replicate 12 0), newTestLicense 0),
         (generateLicenseKey "TEST-z1" (List.replicate 12 255), newTestLicense 7)]) ∧
    (issueRetry [(generateLicenseKey "TEST" (List.replicate 12 0), newTestLicense 0)]
        (List.replicate 12 0) "z1" (List.replicate 12 255) 7).2.find
      (generateLicenseKey "TEST" (List.replicate 12 0)) = some (newTestLicense 0) :=
  have h := claim_issue_retry_amended
    [(generateLicenseKey "TEST" (List.replicate 12 0), newTestLicense 0)]
    (List.replicate 12 0) "z1" (List.replicate 12 255) 7 (by decide) (by decide)
  ⟨h.1, h.2.2.2 (generateLicenseKey "TEST" (List.replicate 12 0)) (newTestLicense 0) (by decide)⟩

/-- C8: whenever `licenseKey` or `deviceId` is missing/empty, both Activate
and Verify return the 400 invalid-input result with the store untouched —
for every store, so before any lookup or write; with both fields non-empty
neither operation ever returns 400. -/
theorem claim_input_validation (store : Store) (k d : String) (now : Nat) :
    ((k = "" ∨ d = "") →
      activate store k d now = (.invalidInput, store) ∧
      verify store k d = .invalidInput ∧
      ActResult.invalidInput.status = 400 ∧ VerResult.invalidInput.status = 400) ∧
    (k ≠ "" → d ≠ "" →
      (activate store k d now).1.status ≠ 400 ∧ (verify store k d).status ≠ 400) := by
  constructor
  · intro hv
    exact ⟨by simp [activate, hv], by simp [verify, hv], rfl, rfl⟩
  · intro hk hd
    have hv : ¬(k = "" ∨ d = "") := by tauto
    constructor
    · rcases hf : store.find k with _ | lic
      · simp [activate, hv, hf, ActResult.status]
      · by_cases ha : lic.activated
        · by_cases hdev : lic.deviceId ≠ some d <;>
            simp [activate, hv, hf, ha, hdev, ActResult.status]
        · simp [activate, hv, hf, ha, ActResult.status]
    · rcases hf : store.find k with _ | lic
      · simp [verify, hv, hf, VerResult.status]
      · by_cases ha : lic.activated
        · by_cases hdev : lic.deviceId ≠ some d <;>
            simp [verify, hv, hf, ha, hdev, VerResult.status]
        · simp [verify, hv, hf, ha, VerResult.status]

/-- C8 witness: the invalid-input case at an empty device id and the
non-400 case at non-empty fields, on a concrete store. -/
theorem claim_input_validation_witness :
    (activate [("K", newTestLicense 0)] "K" "" 3 =
      (.invalidInput, [("K", newTestLicense 0)]) ∧
      verify [("K", newTestLicense 0)] "K" "" = .invalidInput ∧
      ActResult.invalidInput.status = 400 ∧ VerResult.invalidInput.status = 400) ∧
    ((activate [("K", newTestLicense 0)] "K" "D" 3).1.status ≠ 400 ∧
      (verify [("K", newTestLicense 0)] "K" "D").status ≠ 400) :=
  ⟨(claim_input_validation [("K", newTestLicense 0)] "K" "" 3).1 (Or.inr rfl),
   (claim_input_validation [("K", newTestLicense 0)] "K" "D" 3).2
     (by decide) (by decide)⟩

/-- C9 counterexample: the admin listing does not fail with 500 when the
store read fails — `getLicenses` swallows the read error and returns the
empty object, so the handler answers 200. -/
theorem claim_admin_read_failure_cex : (adminLicenses ReadResult.failure).1 ≠ 500 := by
  decide

/-- C9 (amended): `GET /api/admin/licenses` returns 200 with the full
persisted mapping when the store can be read, and still returns 200 — with
the empty mapping — when reading the store fails. -/
theorem claim_admin_listing_amended (s : Store) :
    adminLicenses (ReadResult.ok s) = (200, s) ∧
    adminLicenses ReadResult.failure = (200, []) :=
  ⟨rfl, rfl⟩

/-- C9 (amended) witness: the admin listing at a concrete store. -/
theorem claim_admin_listing_amended_witness :
    adminLicenses (ReadResult.ok [("K", newTestLicense 0)]) =
      (200, [("K", newTestLicense 0)]) ∧
    adminLicenses ReadResult.failure = (200, []) :=
  claim_admin_listing_amended [("K", newTestLicense 0)]

/-- C10: when the license file is unreadable or invalid, `getLicenses`
returns the empty mapping instead of raising, so Activate and Verify of any
(non-empty) key report `NotFound` (404) rather than a 500, and the admin
listing returns 200 with the empty object. -/
theorem claim_read_failure_notfound (k d : String) (now : Nat)
    (hk : k ≠ "") (hd : d ≠ "") :
    getLicenses ReadResult.failure = [] ∧
    activateHandler ReadResult.failure k d now = (.notFound, []) ∧
    ActResult.notFound.status = 404 ∧
    verifyHandler ReadResult.failure k d = .notFound ∧
    VerResult.notFound.status = 404 ∧
    adminLicenses ReadResult.failure = (200, []) := by
  have hv : ¬(k = "" ∨ d = "") := by tauto
  refine ⟨rfl, ?_, rfl, ?_, rfl, rfl⟩
  · simp [activateHandler, getLicenses, activate, hv, Store.find]
  · simp [verifyHandler, getLicenses, verify, hv, Store.find]

/-- C10 witness: a previously persisted key reports not-found after a read
failure, at a concrete input. -/
theorem claim_read_failure_notfound_witness :
    getLicenses ReadResult.failure = [] ∧
    activateHandler ReadResult.failure "K" "D" 3 = (.notFound, []) ∧
    ActResult.notFound.status = 404 ∧
    verifyHandler ReadResult.failure "K" "D" = .notFound ∧
    VerResult.notFound.status = 404 ∧
    adminLicenses ReadResult.failure = (200, []) :=
  claim_read_failure_notfound "K" "D" 3 (by decide) (by decide)

end LicenseServer
